import Mathlib

/-!
Verification of the 2-dimensional grid container `Vec2D<T>` from
`src/vec2d.rs` (rusty-pullauta): storage layout, bounds-checked indexing,
iteration, NaN scan, and the binary serialization protocol.

Shallow embedding conventions:
  * `usize` values are `Nat` (Rust's `usize` is a machine word; arithmetic on
    the relevant paths never overflows for in-range grids, and the wire codec
    makes the word size explicit where it matters).
  * The contiguous buffer `Box<[T]>` is a `List T`.
  * A Rust panic is an `Except.error` carrying the panic message.
  * The `unsafe get_unchecked` buffer access is the partial lookup `l[i]?`: a `none` result
    marks the undefined-behaviour case, shown unreachable under the structural
    invariant `data.len() == w * h`.
  * A byte stream is a `List Nat` of byte values; `std::io::Read` is a
    function consuming a prefix of the stream, `std::io::Write` produces the
    bytes written; `std::io::Result` is `Except String`.
-/

/-- The `Vec2D<T>` struct: a contiguous buffer `data` with dimensions
`w` (width) and `h` (height); element `(x, y)` lives at offset `x*h + y`. -/
structure Vec2D (T : Type) where
  data : List T
  w : Nat
  h : Nat
deriving Repr, DecidableEq

/-- `Vec2D::new(w, h, default)`: a buffer of `w*h` clones of `default`. -/
def Vec2D.new (w h : Nat) (default : T) : Vec2D T :=
  { data := List.replicate (w * h) default, w := w, h := h }

/-- `Vec2D::width`. -/
def Vec2D.width (g : Vec2D T) : Nat := g.w

/-- `Vec2D::height`. -/
def Vec2D.height (g : Vec2D T) : Nat := g.h

/-- The panic message of the out-of-bounds branch in `Index`/`IndexMut`:
`"index out of bounds: the len is ({w}, {h}) but the index is ({x}, {y})"`. -/
def oob_msg (w h x y : Nat) : String :=
  "index out of bounds: the len is (" ++ toString w ++ ", " ++ toString h ++
    ") but the index is (" ++ toString x ++ ", " ++ toString y ++ ")"

/-- `Index::index` for `Vec2D<T>` at `(x, y)`: panic when `x >= w || y >= h`,
otherwise the unchecked buffer read at offset `x*h + y` (the inner `Option`
is the unchecked access; `none` is the out-of-buffer UB case, unreachable
under the structural invariant). -/
def Vec2D.index (g : Vec2D T) (x y : Nat) : Except String (Option T) :=
  if x ≥ g.w ∨ y ≥ g.h then
    Except.error (oob_msg g.w g.h x y)
  else
    Except.ok g.data[x * g.h + y]?

/-- `IndexMut::index_mut` for `Vec2D<T>` followed by storing `v` through the
returned reference: panic when `x >= w || y >= h`, otherwise the unchecked
buffer write at offset `x*h + y` (an offset past the buffer would be UB;
`List.set` leaves the list unchanged there, unreachable under the invariant). -/
def Vec2D.index_mut (g : Vec2D T) (x y : Nat) (v : T) : Except String (Vec2D T) :=
  if x ≥ g.w ∨ y ≥ g.h then
    Except.error (oob_msg g.w g.h x y)
  else
    Except.ok { data := g.data.set (x * g.h + y) v, w := g.w, h := g.h }

/-- `Vec2D::iter`: enumerate the buffer in offset order and recover the
coordinates as `x = i / h`, `y = i % h`. -/
def Vec2D.iter (g : Vec2D T) : List (Nat × Nat × T) :=
  g.data.enum.map (fun p => (p.1 / g.h, p.1 % g.h, p.2))

/-- `Vec2D::iter_mut`: same enumeration as `iter` (the triples yielded; the
mutation happens through the `&mut T` component, not modelled here). -/
def Vec2D.iter_mut (g : Vec2D T) : List (Nat × Nat × T) :=
  let h := g.h
  g.data.enum.map (fun p => (p.1 / h, p.1 % h, p.2))

/-- `Vec2D::<f64>::is_any_nan`, with `f64::is_nan` as an abstract predicate
`is_nan` on the element type: `self.data.iter().any(|x| x.is_nan())`. -/
def Vec2D.is_any_nan (is_nan : T → Bool) (g : Vec2D T) : Bool :=
  g.data.any is_nan

/-- The structural invariant of `Vec2D`: `data.len() == w * h`. Every
constructor of the type in the source (`new` and `from_bytes`) establishes
it and no operation changes `data.len()`, `w` or `h`. -/
def Vec2D.Inv (g : Vec2D T) : Prop :=
  g.data.length = g.w * g.h

/-- The `FromToBytes` trait from the (missing) `io::bytes` module: a codec
reading one `T` off the front of a byte stream, and writing one `T` as bytes.
Failure (`std::io::Error`) is `Except.error`. -/
structure FromToBytes (T : Type) where
  from_bytes : List Nat → Except String (T × List Nat)
  to_bytes : T → Except String (List Nat)

/-- T's own encode/decode round-trip law: decoding bytes produced by a
successful encode yields the value back and consumes exactly those bytes. -/
def RoundTripLaw (c : FromToBytes T) : Prop :=
  ∀ v bs rest, c.to_bytes v = Except.ok bs →
    c.from_bytes (bs ++ rest) = Except.ok (v, rest)

/-- Modelled from the spec: the word-sized unsigned-integer codec for
`usize` from the missing `io::bytes` module ("encoded as a platform-word-sized
unsigned integer"), 8 bytes (64-bit word), little-endian; helper emitting
`k` bytes. -/
def usize_to_bytes_aux : Nat → Nat → List Nat
  | 0, _ => []
  | k + 1, n => n % 256 :: usize_to_bytes_aux k (n / 256)

/-- Modelled from the spec: decoding helper reading `k` bytes little-endian;
a short stream is an I/O error. -/
def usize_from_bytes_aux : Nat → List Nat → Except String (Nat × List Nat)
  | 0, bs => Except.ok (0, bs)
  | _ + 1, [] => Except.error "failed to fill whole buffer"
  | k + 1, b :: bs =>
    match usize_from_bytes_aux k bs with
    | Except.ok (m, rest) => Except.ok (m * 256 + b, rest)
    | Except.error e => Except.error e

/-- Modelled from the spec: `usize::to_bytes` — the 8-byte word encoding. -/
def usize_to_bytes (n : Nat) : List Nat :=
  usize_to_bytes_aux 8 n

/-- Modelled from the spec: `usize::from_bytes` — read back an 8-byte word. -/
def usize_from_bytes (bs : List Nat) : Except String (Nat × List Nat) :=
  usize_from_bytes_aux 8 bs

/-- The element-writing loop of `Vec2D::to_bytes`:
`for item in self.data.iter() { item.to_bytes(writer)?; }` — the bytes
written are the concatenation, and the first failure aborts the loop. -/
def write_items (c : FromToBytes T) : List T → Except String (List Nat)
  | [] => Except.ok []
  | v :: vs =>
    match c.to_bytes v with
    | Except.error e => Except.error e
    | Except.ok b =>
      match write_items c vs with
      | Except.error e => Except.error e
      | Except.ok bs => Except.ok (b ++ bs)

/-- The element-reading loop of `Vec2D::from_bytes`:
`for _ in 0..w*h { data.push(T::from_bytes(reader)?); }`. -/
def read_items (c : FromToBytes T) : Nat → List Nat → Except String (List T × List Nat)
  | 0, bs => Except.ok ([], bs)
  | k + 1, bs =>
    match c.from_bytes bs with
    | Except.error e => Except.error e
    | Except.ok (v, bs1) =>
      match read_items c k bs1 with
      | Except.error e => Except.error e
      | Except.ok (vs, bs2) => Except.ok (v :: vs, bs2)

/-- `Vec2D::to_bytes`: write `w`, then `h`, then each element in buffer
order; any failure propagates. -/
def Vec2D.to_bytes (c : FromToBytes T) (g : Vec2D T) : Except String (List Nat) :=
  match write_items c g.data with
  | Except.error e => Except.error e
  | Except.ok ebs => Except.ok (usize_to_bytes g.w ++ usize_to_bytes g.h ++ ebs)

/-- `Vec2D::from_bytes`: read `w`, then `h`, then exactly `w * h` elements,
where `w * h` is the `usize` product of the two wire-decoded dimensions —
it wraps at the 64-bit word (`% 256^8`, release-mode Rust semantics), so an
overflowing product reads the wrapped count, not the mathematical product;
any failure propagates and no container is produced. -/
def Vec2D.from_bytes (c : FromToBytes T) (bs : List Nat) :
    Except String (Vec2D T × List Nat) :=
  match usize_from_bytes bs with
  | Except.error e => Except.error e
  | Except.ok (w, bs1) =>
    match usize_from_bytes bs1 with
    | Except.error e => Except.error e
    | Except.ok (h, bs2) =>
      match read_items c ((w * h) % 256 ^ 8) bs2 with
      | Except.error e => Except.error e
      | Except.ok (vs, rest) => Except.ok ({ data := vs, w := w, h := h }, rest)

/-- A concrete element codec on `Nat` (one byte per value), used to
instantiate the generic serialization theorems on closed inputs. -/
def natCodec : FromToBytes Nat where
  from_bytes := fun bs =>
    match bs with
    | [] => Except.error "unexpected eof"
    | b :: rest => Except.ok (b, rest)
  to_bytes := fun n => Except.ok [n]

/- Helper lemmas (shared). -/

theorem offset_div (x h y : Nat) (hy : y < h) : (x * h + y) / h = x := by
  have hp : 0 < h := Nat.lt_of_le_of_lt (Nat.zero_le _) hy
  rw [Nat.add_comm, Nat.add_mul_div_right _ _ hp, Nat.div_eq_of_lt hy, Nat.zero_add]

theorem offset_mod (x h y : Nat) (hy : y < h) : (x * h + y) % h = y := by
  rw [Nat.add_comm, Nat.add_mul_mod_self_right, Nat.mod_eq_of_lt hy]

theorem offset_lt (x y w h : Nat) (hx : x < w) (hy : y < h) :
    x * h + y < w * h := by
  calc x * h + y < x * h + h := Nat.add_lt_add_left hy _
    _ = (x + 1) * h := by ring
    _ ≤ w * h := Nat.mul_le_mul_right h (Nat.succ_le_of_lt hx)

theorem offset_inj (x y x2 y2 h : Nat) (hy : y < h) (hy2 : y2 < h)
    (he : x * h + y = x2 * h + y2) : x = x2 ∧ y = y2 := by
  constructor
  · have := congrArg (· / h) he
    simpa [offset_div x h y hy, offset_div x2 h y2 hy2] using this
  · have := congrArg (· % h) he
    simpa [offset_mod x h y hy, offset_mod x2 h y2 hy2] using this

theorem div_mul_add_mod (i h : Nat) : i / h * h + i % h = i := by
  rw [Nat.mul_comm]; exact Nat.div_add_mod i h

theorem usize_aux_roundtrip (k : Nat) :
    ∀ n rest, usize_from_bytes_aux k (usize_to_bytes_aux k n ++ rest) =
      Except.ok (n % 256 ^ k, rest) := by
  induction k with
  | zero =>
    intro n rest
    simp [usize_to_bytes_aux, usize_from_bytes_aux, Nat.mod_one]
  | succ k ih =>
    intro n rest
    have e : n / 256 % 256 ^ k * 256 + n % 256 = n % 256 ^ (k + 1) := by
      rw [pow_succ, Nat.mul_comm (256 ^ k) 256, Nat.mod_mul]
      ring
    show usize_from_bytes_aux (k + 1)
        (n % 256 :: (usize_to_bytes_aux k (n / 256) ++ rest)) = _
    unfold usize_from_bytes_aux
    rw [ih (n / 256) rest]
    show Except.ok (n / 256 % 256 ^ k * 256 + n % 256, rest) = _
    rw [e]

theorem usize_roundtrip (n : Nat) (rest : List Nat) (hn : n < 256 ^ 8) :
    usize_from_bytes (usize_to_bytes n ++ rest) = Except.ok (n, rest) := by
  unfold usize_from_bytes usize_to_bytes
  rw [usize_aux_roundtrip 8 n rest, Nat.mod_eq_of_lt hn]

theorem read_write_items (c : FromToBytes T) (hc : RoundTripLaw c) :
    ∀ (vs : List T) (bs rest : List Nat), write_items c vs = Except.ok bs →
      read_items c vs.length (bs ++ rest) = Except.ok (vs, rest) := by
  intro vs
  induction vs with
  | nil =>
    intro bs rest hw
    simp only [write_items, Except.ok.injEq] at hw
    subst hw
    simp [read_items]
  | cons v vs ih =>
    intro bs rest hw
    unfold write_items at hw
    cases hv : c.to_bytes v with
    | error e => rw [hv] at hw; cases hw
    | ok b =>
      rw [hv] at hw
      cases hvs : write_items c vs with
      | error e => rw [hvs] at hw; cases hw
      | ok bs2 =>
        rw [hvs] at hw
        simp only [Except.ok.injEq] at hw
        subst hw
        show read_items c (vs.length + 1) (b ++ bs2 ++ rest) = _
        unfold read_items
        rw [List.append_assoc, hc v b (bs2 ++ rest) hv]
        show (match read_items c vs.length (bs2 ++ rest) with
          | Except.error e => Except.error e
          | Except.ok (vs2, bs3) => Except.ok (v :: vs2, bs3)) = _
        rw [ih bs2 rest hvs]

theorem read_items_length (c : FromToBytes T) :
    ∀ (n : Nat) (bs : List Nat) (vs : List T) (rest : List Nat),
      read_items c n bs = Except.ok (vs, rest) → vs.length = n := by
  intro n
  induction n with
  | zero =>
    intro bs vs rest h
    simp only [read_items, Except.ok.injEq, Prod.mk.injEq] at h
    rw [← h.1]
    rfl
  | succ n ih =>
    intro bs vs rest h
    unfold read_items at h
    cases hv : c.from_bytes bs with
    | error e => rw [hv] at h; cases h
    | ok p =>
      obtain ⟨v, bs1⟩ := p
      rw [hv] at h
      have h2 : (match read_items c n bs1 with
        | Except.error e => Except.error e
        | Except.ok (vs2, bs2) => Except.ok (v :: vs2, bs2)) =
          Except.ok (vs, rest) := h
      cases hr : read_items c n bs1 with
      | error e => rw [hr] at h2; cases h2
      | ok q =>
        obtain ⟨vs2, bs2⟩ := q
        rw [hr] at h2
        simp only [Except.ok.injEq, Prod.mk.injEq] at h2
        rw [← h2.1]
        simp [ih bs1 vs2 bs2 hr]

theorem write_items_ok (c : FromToBytes T) (f : T → List Nat) :
    ∀ vs : List T, (∀ v ∈ vs, c.to_bytes v = Except.ok (f v)) →
      write_items c vs = Except.ok (vs.map f).flatten := by
  intro vs
  induction vs with
  | nil => intro _; simp [write_items]
  | cons v vs ih =>
    intro hall
    unfold write_items
    rw [hall v (List.mem_cons_self v vs), ih (fun u hu => hall u (List.mem_cons_of_mem v hu))]
    simp

theorem write_items_first_error (c : FromToBytes T) (v : T) (e : String) :
    ∀ (pre : List T) (post : List T),
      (∀ u ∈ pre, ∃ b, c.to_bytes u = Except.ok b) →
      c.to_bytes v = Except.error e →
      write_items c (pre ++ v :: post) = Except.error e := by
  intro pre
  induction pre with
  | nil =>
    intro post _ hv
    simp only [List.nil_append]
    unfold write_items
    rw [hv]
  | cons u pre ih =>
    intro post hall hv
    obtain ⟨b, hb⟩ := hall u (List.mem_cons_self u pre)
    simp only [List.cons_append]
    unfold write_items
    rw [hb, ih post (fun u2 hu2 => hall u2 (List.mem_cons_of_mem u hu2)) hv]

theorem natCodec_roundtrip : RoundTripLaw natCodec := by
  intro v bs rest h
  simp only [natCodec, Except.ok.injEq] at h
  subst h
  rfl

/-- C4: `new(w, h, d)` returns a grid whose buffer has exactly `w*h`
elements, every cell of which equals `d`, with `width() = w` and
`height() = h`; there is no failure path, `w = 0` or `h = 0` yields an
empty buffer, and every in-bounds read of the fresh grid returns `d`. -/
theorem c4_new_spec (T : Type) (w h : Nat) (d : T) :
    (Vec2D.new w h d).data.length = w * h ∧
    (Vec2D.new w h d).width = w ∧
    (Vec2D.new w h d).height = h ∧
    (Vec2D.new w h d).data = List.replicate (w * h) d ∧
    (∀ v ∈ (Vec2D.new w h d).data, v = d) ∧
    (w = 0 ∨ h = 0 → (Vec2D.new w h d).data = []) ∧
    (∀ x y, x < w → y < h → (Vec2D.new w h d).index x y = Except.ok (some d)) := by
  refine ⟨by simp [Vec2D.new], rfl, rfl, rfl, ?_, ?_, ?_⟩
  · intro v hv
    exact List.eq_of_mem_replicate hv
  · intro h0
    have : w * h = 0 := by rcases h0 with h0 | h0 <;> simp [h0]
    simp [Vec2D.new, this]
  · intro x y hx hy
    have hcond : ¬(x ≥ (Vec2D.new w h d).w ∨ y ≥ (Vec2D.new w h d).h) := by
      push_neg
      exact ⟨hx, hy⟩
    unfold Vec2D.index
    rw [if_neg hcond]
    show Except.ok (List.replicate (w * h) d)[x * h + y]? = _
    rw [List.getElem?_replicate, if_pos (offset_lt x y w h hx hy)]

/-- C4 witness at `w = 3`, `h = 2`, `d = 7`, reading cell `(2, 1)`. -/
theorem c4_new_spec_witness :
    (Vec2D.new 3 2 (7 : Nat)).data.length = 3 * 2 ∧
    (Vec2D.new 3 2 (7 : Nat)).width = 3 ∧
    (Vec2D.new 3 2 (7 : Nat)).height = 2 ∧
    (Vec2D.new 3 2 (7 : Nat)).index 2 1 = Except.ok (some 7) :=
  ⟨(c4_new_spec Nat 3 2 7).1, (c4_new_spec Nat 3 2 7).2.1,
    (c4_new_spec Nat 3 2 7).2.2.1,
    (c4_new_spec Nat 3 2 7).2.2.2.2.2.2 2 1 (by decide) (by decide)⟩

/-- C2: for any out-of-bounds coordinate (`x ≥ width` or `y ≥ height`), both
indexed read and indexed write fail with the out-of-bounds panic whose
message contains the dimensions `(w, h)` and the attempted index `(x, y)`;
the failing path never reads the buffer (the outcome is the same for any
buffer contents). -/
theorem c2_bounds_enforcement (T : Type) (g : Vec2D T) (x y : Nat) (v : T)
    (hoob : x ≥ g.w ∨ y ≥ g.h) :
    g.index x y = Except.error (oob_msg g.w g.h x y) ∧
    g.index_mut x y v = Except.error (oob_msg g.w g.h x y) ∧
    (∃ a b c2, oob_msg g.w g.h x y =
      a ++ ("(" ++ toString g.w ++ ", " ++ toString g.h ++ ")") ++ b ++
        ("(" ++ toString x ++ ", " ++ toString y ++ ")") ++ c2) ∧
    (∀ data2 : List T,
      (Vec2D.mk data2 g.w g.h).index x y = g.index x y ∧
      (Vec2D.mk data2 g.w g.h).index_mut x y v =
        Except.error (oob_msg g.w g.h x y)) := by
  have hidx : g.index x y = Except.error (oob_msg g.w g.h x y) := by
    unfold Vec2D.index
    rw [if_pos hoob]
  have hmut : g.index_mut x y v = Except.error (oob_msg g.w g.h x y) := by
    unfold Vec2D.index_mut
    rw [if_pos hoob]
  refine ⟨hidx, hmut, ?_, ?_⟩
  · refine ⟨"index out of bounds: the len is ", " but the index is ", "", ?_⟩
    have e1 : ("index out of bounds: the len is " : String) ++ "(" =
        "index out of bounds: the len is (" := rfl
    have e2 : (")" : String) ++ (" but the index is " ++ "(") =
        ") but the index is (" := rfl
    unfold oob_msg
    simp only [String.append_empty, String.append_assoc, ← e1, ← e2]
  · intro data2
    constructor
    · show (if x ≥ g.w ∨ y ≥ g.h then _ else _) = g.index x y
      rw [if_pos hoob, hidx]
    · show (if x ≥ g.w ∨ y ≥ g.h then _ else _) = _
      rw [if_pos hoob]

/-- C2 witness: a 3×2 grid read at (3, 0) and written at (0, 2). -/
theorem c2_bounds_enforcement_witness :
    (Vec2D.new 3 2 (1 : Nat)).index 3 0 = Except.error (oob_msg 3 2 3 0) ∧
    (Vec2D.new 3 2 (1 : Nat)).index_mut 0 2 5 = Except.error (oob_msg 3 2 0 2) :=
  ⟨(c2_bounds_enforcement Nat (Vec2D.new 3 2 1) 3 0 5 (Or.inl (by decide))).1,
    (c2_bounds_enforcement Nat (Vec2D.new 3 2 1) 0 2 5 (Or.inr (by decide))).2.1⟩

/-- C6: in-bounds read and write both address linear offset `x*h + y` of the
buffer, and the two use the identical bounds-check logic: each fails exactly
when `x ≥ width` or `y ≥ height`, and with the identical error message. -/
theorem c6_offset_agreement (T : Type) (g : Vec2D T) (x y : Nat) (v : T) :
    (x < g.w → y < g.h →
      g.index x y = Except.ok g.data[x * g.h + y]? ∧
      g.index_mut x y v =
        Except.ok (Vec2D.mk (g.data.set (x * g.h + y) v) g.w g.h)) ∧
    (∀ e, g.index x y = Except.error e ↔ g.index_mut x y v = Except.error e) ∧
    ((∃ e, g.index x y = Except.error e) ↔ x ≥ g.w ∨ y ≥ g.h) := by
  by_cases hc : x ≥ g.w ∨ y ≥ g.h
  · have hidx : g.index x y = Except.error (oob_msg g.w g.h x y) := by
      unfold Vec2D.index
      rw [if_pos hc]
    have hmut : g.index_mut x y v = Except.error (oob_msg g.w g.h x y) := by
      unfold Vec2D.index_mut
      rw [if_pos hc]
    refine ⟨?_, ?_, ?_⟩
    · intro hx hy
      rcases hc with hc | hc
      · exact absurd hx (Nat.not_lt.mpr hc)
      · exact absurd hy (Nat.not_lt.mpr hc)
    · intro e
      rw [hidx, hmut]
      simp
    · exact ⟨fun _ => hc, fun _ => ⟨_, hidx⟩⟩
  · have hidx : g.index x y = Except.ok g.data[x * g.h + y]? := by
      unfold Vec2D.index
      rw [if_neg hc]
    have hmut : g.index_mut x y v =
        Except.ok (Vec2D.mk (g.data.set (x * g.h + y) v) g.w g.h) := by
      unfold Vec2D.index_mut
      rw [if_neg hc]
    refine ⟨fun _ _ => ⟨hidx, hmut⟩, ?_, ?_⟩
    · intro e
      rw [hidx, hmut]
      simp
    · constructor
      · rintro ⟨e, he⟩
        rw [hidx] at he
        cases he
      · intro h2
        exact absurd h2 hc

/-- C6 witness on a 3×2 grid: (2, 1) in bounds and (3, 0) out of bounds. -/
theorem c6_offset_agreement_witness :
    (Vec2D.new 3 2 (1 : Nat)).index 2 1 =
      Except.ok (Vec2D.new 3 2 (1 : Nat)).data[2 * 2 + 1]? ∧
    (∃ e, (Vec2D.new 3 2 (1 : Nat)).index 3 0 = Except.error e) :=
  ⟨((c6_offset_agreement Nat (Vec2D.new 3 2 1) 2 1 9).1 (by decide) (by decide)).1,
    (c6_offset_agreement Nat (Vec2D.new 3 2 1) 3 0 9).2.2.mpr (Or.inl (by decide))⟩

/-- C9: `is_any_nan` returns true iff at least one stored element satisfies
the NaN predicate; an empty grid and an all-non-NaN grid both report false
(the function is pure, so the grid is unchanged). -/
theorem c9_is_any_nan_spec (T : Type) (is_nan : T → Bool) (g : Vec2D T) :
    (Vec2D.is_any_nan is_nan g = true ↔ ∃ v ∈ g.data, is_nan v = true) ∧
    (g.data = [] → Vec2D.is_any_nan is_nan g = false) ∧
    ((∀ v ∈ g.data, is_nan v = false) → Vec2D.is_any_nan is_nan g = false) := by
  refine ⟨?_, ?_, ?_⟩
  · simp [Vec2D.is_any_nan, List.any_eq_true]
  · intro h0
    simp [Vec2D.is_any_nan, h0]
  · intro hall
    simp only [Vec2D.is_any_nan, List.any_eq_false]
    intro v hv
    simp [hall v hv]

/-- C9 witness: a 1×1 grid whose sole cell satisfies the predicate, and one
whose cell does not. -/
theorem c9_is_any_nan_spec_witness :
    Vec2D.is_any_nan (fun n => n == 0) (Vec2D.new 1 1 (0 : Nat)) = true ∧
    Vec2D.is_any_nan (fun n => n == 0) (Vec2D.new 1 1 (1 : Nat)) = false :=
  ⟨(c9_is_any_nan_spec Nat (fun n => n == 0) (Vec2D.new 1 1 0)).1.mpr
      ⟨0, by decide, by decide⟩,
    (c9_is_any_nan_spec Nat (fun n => n == 0) (Vec2D.new 1 1 1)).2.2 (by decide)⟩

/-- C10: under the structural invariant `data.len() = w*h`, every coordinate
that passes the bounds check maps to a linear offset strictly inside the
buffer — both the unchecked read and the write stay within the buffer — and
a non-empty buffer forces `height > 0`, so the divisions and remainders by
`height` inside `iter`/`iter_mut` never divide by zero. -/
theorem c10_totality (T : Type) (g : Vec2D T) (hinv : g.Inv) :
    (∀ x y, x < g.w → y < g.h →
      x * g.h + y < g.data.length ∧
      (∃ v, g.data[x * g.h + y]? = some v) ∧
      (∀ v : T, (g.data.set (x * g.h + y) v).length = g.data.length)) ∧
    (g.data ≠ [] → 0 < g.h) := by
  constructor
  · intro x y hx hy
    have hlt : x * g.h + y < g.data.length := by
      rw [hinv]
      exact offset_lt x y g.w g.h hx hy
    exact ⟨hlt, ⟨_, List.getElem?_eq_getElem hlt⟩, fun v => List.length_set ..⟩
  · intro hne
    rcases Nat.eq_zero_or_pos g.h with h0 | hpos
    · exfalso
      apply hne
      have hz : g.data.length = 0 := by
        rw [hinv, h0, Nat.mul_zero]
      exact List.length_eq_zero.mp hz
    · exact hpos

/-- C10 witness: a 3×2 grid at coordinate (2, 1). -/
theorem c10_totality_witness :
    2 * (Vec2D.new 3 2 (5 : Nat)).h + 1 < (Vec2D.new 3 2 (5 : Nat)).data.length ∧
    0 < (Vec2D.new 3 2 (5 : Nat)).h :=
  ⟨((c10_totality Nat (Vec2D.new 3 2 5) rfl).1 2 1 (by decide) (by decide)).1,
    (c10_totality Nat (Vec2D.new 3 2 5) rfl).2 (by decide)⟩

/-- C3: under the structural invariant, writing `v` at in-bounds `(x, y)`
succeeds, reading `(x, y)` afterwards returns `v`, every other in-bounds
cell reads the same value as before the write, and the width, height and
invariant are unchanged. -/
theorem c3_write_read_frame (T : Type) (g : Vec2D T) (x y : Nat) (v : T)
    (hinv : g.Inv) (hx : x < g.w) (hy : y < g.h) :
    g.index_mut x y v =
      Except.ok (Vec2D.mk (g.data.set (x * g.h + y) v) g.w g.h) ∧
    (Vec2D.mk (g.data.set (x * g.h + y) v) g.w g.h).index x y =
      Except.ok (some v) ∧
    (Vec2D.mk (g.data.set (x * g.h + y) v) g.w g.h).width = g.width ∧
    (Vec2D.mk (g.data.set (x * g.h + y) v) g.w g.h).height = g.height ∧
    (Vec2D.mk (g.data.set (x * g.h + y) v) g.w g.h).Inv ∧
    (∀ x2 y2, x2 < g.w → y2 < g.h → (x2, y2) ≠ (x, y) →
      (Vec2D.mk (g.data.set (x * g.h + y) v) g.w g.h).index x2 y2 =
        g.index x2 y2) := by
  have hnc : ¬(x ≥ g.w ∨ y ≥ g.h) := by
    push_neg
    exact ⟨hx, hy⟩
  have hoff : x * g.h + y < g.data.length := by
    rw [hinv]
    exact offset_lt x y g.w g.h hx hy
  refine ⟨?_, ?_, rfl, rfl, ?_, ?_⟩
  · unfold Vec2D.index_mut
    rw [if_neg hnc]
  · simp only [Vec2D.index]
    rw [if_neg hnc, List.getElem?_set]
    simp [hoff]
  · show (g.data.set (x * g.h + y) v).length = g.w * g.h
    rw [List.length_set, hinv]
  · intro x2 y2 hx2 hy2 hne
    have hnc2 : ¬(x2 ≥ g.w ∨ y2 ≥ g.h) := by
      push_neg
      exact ⟨hx2, hy2⟩
    have hneq : x * g.h + y ≠ x2 * g.h + y2 := by
      intro heq
      obtain ⟨hx3, hy3⟩ := offset_inj x y x2 y2 g.h hy hy2 heq
      exact hne (by rw [Prod.mk.injEq]; exact ⟨hx3.symm, hy3.symm⟩)
    simp only [Vec2D.index]
    rw [if_neg hnc2, if_neg hnc2, List.getElem?_set, if_neg hneq]

/-- C3 witness: on a 2×2 grid write 9 at (0, 1), read it back, and check the
untouched cell (1, 0). -/
theorem c3_write_read_frame_witness :
    (Vec2D.new 2 2 (0 : Nat)).index_mut 0 1 9 =
      Except.ok (Vec2D.mk ((Vec2D.new 2 2 (0 : Nat)).data.set (0 * 2 + 1) 9) 2 2) ∧
    (Vec2D.mk ((Vec2D.new 2 2 (0 : Nat)).data.set (0 * 2 + 1) 9) 2 2).index 0 1 =
      Except.ok (some 9) ∧
    (Vec2D.mk ((Vec2D.new 2 2 (0 : Nat)).data.set (0 * 2 + 1) 9) 2 2).index 1 0 =
      (Vec2D.new 2 2 (0 : Nat)).index 1 0 :=
  ⟨(c3_write_read_frame Nat (Vec2D.new 2 2 0) 0 1 9 rfl (by decide) (by decide)).1,
    (c3_write_read_frame Nat (Vec2D.new 2 2 0) 0 1 9 rfl (by decide) (by decide)).2.1,
    (c3_write_read_frame Nat (Vec2D.new 2 2 0) 0 1 9 rfl (by decide)
      (by decide)).2.2.2.2.2 1 0 (by decide) (by decide) (by decide)⟩

/-- C5: under the structural invariant, `iter` and `iter_mut` yield the same
sequence of exactly `w*h` triples; the `i`-th triple is
`(i / h, i % h, v)` where `v` is the buffer element at offset `i`, which is
also the cell stored at linear offset `(i/h)*h + i%h`; and the coordinate
pairs yielded are exactly the in-bounds pairs, each exactly once (no
duplicates). -/
theorem c5_iteration (T : Type) (g : Vec2D T) (hinv : g.Inv) :
    g.iter.length = g.w * g.h ∧
    g.iter_mut = g.iter ∧
    (∀ i, i < g.w * g.h →
      ∃ v, g.data[i]? = some v ∧
        g.iter[i]? = some (i / g.h, i % g.h, v) ∧
        g.data[(i / g.h) * g.h + i % g.h]? = some v) ∧
    (g.iter.map (fun t => (t.1, t.2.1))).Nodup ∧
    (∀ x y, ((x, y) ∈ g.iter.map (fun t => (t.1, t.2.1))) ↔
      (x < g.w ∧ y < g.h)) := by
  have hcoords : g.iter.map (fun t => (t.1, t.2.1)) =
      (List.range g.data.length).map (fun i => (i / g.h, i % g.h)) := by
    have h2 : (List.range g.data.length).map (fun i => (i / g.h, i % g.h)) =
        g.data.enum.map ((fun i => (i / g.h, i % g.h)) ∘ Prod.fst) := by
      rw [← List.enum_map_fst g.data, List.map_map]
    rw [h2]
    unfold Vec2D.iter
    rw [List.map_map]
    rfl
  refine ⟨?_, rfl, ?_, ?_, ?_⟩
  · simp only [Vec2D.iter, List.length_map, List.enum_length]
    exact hinv
  · intro i hi
    have hlen : i < g.data.length := by
      rw [hinv]
      exact hi
    refine ⟨g.data[i], List.getElem?_eq_getElem hlen, ?_, ?_⟩
    · simp [Vec2D.iter, List.getElem?_map, List.getElem?_enum,
        List.getElem?_eq_getElem hlen]
    · rw [div_mul_add_mod]
      exact List.getElem?_eq_getElem hlen
  · rw [hcoords]
    refine List.Nodup.map_on ?_ (List.nodup_range _)
    intro i _ j _ heq
    rw [Prod.mk.injEq] at heq
    have he : i / g.h * g.h + i % g.h = j / g.h * g.h + j % g.h := by
      rw [heq.1, heq.2]
    rwa [div_mul_add_mod, div_mul_add_mod] at he
  · intro x y
    rw [hcoords]
    constructor
    · intro hmem
      rw [List.mem_map] at hmem
      obtain ⟨i, hi, heq⟩ := hmem
      rw [List.mem_range, hinv] at hi
      have hpos : 0 < g.h := by
        rcases Nat.eq_zero_or_pos g.h with h0 | hp
        · rw [h0, Nat.mul_zero] at hi
          exact absurd hi (Nat.not_lt_zero i)
        · exact hp
      rw [Prod.mk.injEq] at heq
      constructor
      · rw [← heq.1]
        exact (Nat.div_lt_iff_lt_mul hpos).mpr hi
      · rw [← heq.2]
        exact Nat.mod_lt i hpos
    · rintro ⟨hx, hy⟩
      rw [List.mem_map]
      refine ⟨x * g.h + y, ?_, ?_⟩
      · rw [List.mem_range, hinv]
        exact offset_lt x y g.w g.h hx hy
      · rw [offset_div x g.h y hy, offset_mod x g.h y hy]

/-- C5 witness: a 2×3 grid yields 6 triples, `iter_mut` agrees with `iter`,
and the coordinate (1, 2) is yielded. -/
theorem c5_iteration_witness :
    (Vec2D.new 2 3 (4 : Nat)).iter.length = 2 * 3 ∧
    (Vec2D.new 2 3 (4 : Nat)).iter_mut = (Vec2D.new 2 3 (4 : Nat)).iter ∧
    ((1, 2) ∈ (Vec2D.new 2 3 (4 : Nat)).iter.map (fun t => (t.1, t.2.1))) :=
  ⟨(c5_iteration Nat (Vec2D.new 2 3 4) rfl).1,
    (c5_iteration Nat (Vec2D.new 2 3 4) rfl).2.1,
    ((c5_iteration Nat (Vec2D.new 2 3 4) rfl).2.2.2.2 1 2).mpr
      ⟨by decide, by decide⟩⟩

theorem from_bytes_unfold_1 (c : FromToBytes T) (bs : List Nat) (w : Nat)
    (bs1 : List Nat) (h1 : usize_from_bytes bs = Except.ok (w, bs1)) :
    Vec2D.from_bytes c bs =
      match usize_from_bytes bs1 with
      | Except.error e => Except.error e
      | Except.ok (h, bs2) =>
        match read_items c ((w * h) % 256 ^ 8) bs2 with
        | Except.error e => Except.error e
        | Except.ok (vs, rest) => Except.ok (Vec2D.mk vs w h, rest) := by
  unfold Vec2D.from_bytes
  rw [h1]

theorem from_bytes_unfold_2 (c : FromToBytes T) (bs : List Nat) (w : Nat)
    (bs1 : List Nat) (hh : Nat) (bs2 : List Nat)
    (h1 : usize_from_bytes bs = Except.ok (w, bs1))
    (h2 : usize_from_bytes bs1 = Except.ok (hh, bs2)) :
    Vec2D.from_bytes c bs =
      match read_items c ((w * hh) % 256 ^ 8) bs2 with
      | Except.error e => Except.error e
      | Except.ok (vs, rest) => Except.ok (Vec2D.mk vs w hh, rest) := by
  rw [from_bytes_unfold_1 c bs w bs1 h1, h2]

/-- C7: a successful encode writes exactly the width as the word-sized
unsigned integer, then the height likewise, then the `w*h` element
encodings in buffer (x-major) order; the first failing element write aborts
the encode immediately with that error. -/
theorem c7_encode_contract (T : Type) (c : FromToBytes T) (g : Vec2D T) :
    (∀ f : T → List Nat, (∀ v ∈ g.data, c.to_bytes v = Except.ok (f v)) →
      Vec2D.to_bytes c g =
        Except.ok (usize_to_bytes g.w ++ usize_to_bytes g.h ++
          (g.data.map f).flatten)) ∧
    (∀ pre v post e, g.data = pre ++ v :: post →
      (∀ u ∈ pre, ∃ b, c.to_bytes u = Except.ok b) →
      c.to_bytes v = Except.error e →
      Vec2D.to_bytes c g = Except.error e) := by
  constructor
  · intro f hall
    unfold Vec2D.to_bytes
    rw [write_items_ok c f g.data hall]
  · intro pre v post e hdata hpre hv
    unfold Vec2D.to_bytes
    rw [hdata, write_items_first_error c v e pre post hpre hv]

/-- C7 witness: encoding a 1×2 grid holding the byte 3 yields the two length
words, then the element bytes in order. -/
theorem c7_encode_contract_witness :
    Vec2D.to_bytes natCodec (Vec2D.new 1 2 (3 : Nat)) =
      Except.ok (usize_to_bytes 1 ++ usize_to_bytes 2 ++
        ((Vec2D.new 1 2 (3 : Nat)).data.map (fun n => [n])).flatten) :=
  (c7_encode_contract Nat natCodec (Vec2D.new 1 2 3)).1 (fun n => [n])
    (fun _ _ => rfl)

/-- C8 (amended): decode reads the width, then the height, then populates
exactly `(width*height) % 2^64` elements — the `usize` product of the two
wire-decoded dimensions, which wraps on overflow and equals `width*height`
whenever that product fits the 64-bit word — by invoking T's decoder
repeatedly in order; a failure at any stage (short length word, failing
element read) propagates immediately as that error and no grid value is
produced; a successful decode returns a buffer holding exactly that wrapped
element count, never one cut short by a read failure. -/
theorem c8_decode_contract (T : Type) (c : FromToBytes T) (bs : List Nat) :
    (∀ e, usize_from_bytes bs = Except.error e →
      Vec2D.from_bytes c bs = Except.error e) ∧
    (∀ w bs1 e, usize_from_bytes bs = Except.ok (w, bs1) →
      usize_from_bytes bs1 = Except.error e →
      Vec2D.from_bytes c bs = Except.error e) ∧
    (∀ w bs1 h bs2 e, usize_from_bytes bs = Except.ok (w, bs1) →
      usize_from_bytes bs1 = Except.ok (h, bs2) →
      read_items c ((w * h) % 256 ^ 8) bs2 = Except.error e →
      Vec2D.from_bytes c bs = Except.error e) ∧
    (∀ w bs1 h bs2 vs rest, usize_from_bytes bs = Except.ok (w, bs1) →
      usize_from_bytes bs1 = Except.ok (h, bs2) →
      read_items c ((w * h) % 256 ^ 8) bs2 = Except.ok (vs, rest) →
      Vec2D.from_bytes c bs = Except.ok (Vec2D.mk vs w h, rest) ∧
        vs.length = (w * h) % 256 ^ 8) ∧
    (∀ g rest, Vec2D.from_bytes c bs = Except.ok (g, rest) →
      g.data.length = (g.w * g.h) % 256 ^ 8) ∧
    (∀ e k, c.from_bytes bs = Except.error e →
      read_items c (k + 1) bs = Except.error e) := by
  refine ⟨?_, ?_, ?_, ?_, ?_, ?_⟩
  · intro e h1
    unfold Vec2D.from_bytes
    rw [h1]
  · intro w bs1 e h1 h2
    rw [from_bytes_unfold_1 c bs w bs1 h1, h2]
  · intro w bs1 h bs2 e h1 h2 h3
    rw [from_bytes_unfold_2 c bs w bs1 h bs2 h1 h2, h3]
  · intro w bs1 h bs2 vs rest h1 h2 h3
    refine ⟨?_, read_items_length c ((w * h) % 256 ^ 8) bs2 vs rest h3⟩
    rw [from_bytes_unfold_2 c bs w bs1 h bs2 h1 h2, h3]
  · intro g rest hok
    cases hw : usize_from_bytes bs with
    | error e =>
      unfold Vec2D.from_bytes at hok
      rw [hw] at hok
      cases hok
    | ok p =>
      obtain ⟨w, bs1⟩ := p
      cases hh : usize_from_bytes bs1 with
      | error e =>
        rw [from_bytes_unfold_1 c bs w bs1 hw, hh] at hok
        cases hok
      | ok q =>
        obtain ⟨h, bs2⟩ := q
        cases hr : read_items c ((w * h) % 256 ^ 8) bs2 with
        | error e =>
          rw [from_bytes_unfold_2 c bs w bs1 h bs2 hw hh, hr] at hok
          cases hok
        | ok r =>
          obtain ⟨vs, rest2⟩ := r
          rw [from_bytes_unfold_2 c bs w bs1 h bs2 hw hh, hr] at hok
          simp only [Except.ok.injEq, Prod.mk.injEq] at hok
          rw [← hok.1]
          show vs.length = (w * h) % 256 ^ 8
          exact read_items_length c ((w * h) % 256 ^ 8) bs2 vs rest2 hr
  · intro e k h1
    unfold read_items
    rw [h1]

/-- C8 witness: decoding the empty stream fails with the short-read error of
the width word, producing no grid. -/
theorem c8_decode_contract_witness :
    Vec2D.from_bytes natCodec ([] : List Nat) =
      Except.error "failed to fill whole buffer" :=
  (c8_decode_contract Nat natCodec []).1 "failed to fill whole buffer" rfl

/-- C8 counterexample to the claim as stated: decoding the 16-byte stream
declaring dimensions `(2^63, 2)` succeeds with an empty buffer — the
`usize` product `2^63 * 2` wraps to 0, so the grid returned is not
populated with `width*height` elements and violates the structural
invariant `data.len() = w*h`. -/
theorem c8_decode_contract_cex :
    Vec2D.from_bytes natCodec (usize_to_bytes (2 ^ 63) ++ usize_to_bytes 2) =
      Except.ok (Vec2D.mk ([] : List Nat) (2 ^ 63) 2, ([] : List Nat)) ∧
    ¬ (Vec2D.mk ([] : List Nat) (2 ^ 63) 2).Inv := by
  constructor
  · rfl
  · intro hi
    have h0 : (0 : Nat) = 2 ^ 63 * 2 := hi
    exact absurd h0 (by decide)

/-- C1: round trip — decoding the byte stream produced by a successful
encode of a structurally valid grid (dimensions and the buffer length
`w*h` fit the 64-bit `usize` word, as they do for every Rust-representable
grid; T's own round-trip law holds) yields a grid with the same width, the
same height and the same element sequence, consuming exactly the encoded
bytes. -/
theorem c1_roundtrip (T : Type) (c : FromToBytes T) (hc : RoundTripLaw c)
    (g : Vec2D T) (hinv : g.Inv) (hw : g.w < 256 ^ 8) (hh : g.h < 256 ^ 8)
    (hwh : g.w * g.h < 256 ^ 8)
    (bs : List Nat) (henc : Vec2D.to_bytes c g = Except.ok bs)
    (rest : List Nat) :
    ∃ g2 : Vec2D T, Vec2D.from_bytes c (bs ++ rest) = Except.ok (g2, rest) ∧
      g2.width = g.width ∧ g2.height = g.height ∧ g2.data = g.data := by
  unfold Vec2D.to_bytes at henc
  cases hwi : write_items c g.data with
  | error e =>
    rw [hwi] at henc
    cases henc
  | ok ebs =>
    rw [hwi] at henc
    simp only [Except.ok.injEq] at henc
    subst henc
    refine ⟨Vec2D.mk g.data g.w g.h, ?_, rfl, rfl, rfl⟩
    have h1 : usize_from_bytes
        ((usize_to_bytes g.w ++ usize_to_bytes g.h ++ ebs) ++ rest) =
        Except.ok (g.w, usize_to_bytes g.h ++ (ebs ++ rest)) := by
      have e : (usize_to_bytes g.w ++ usize_to_bytes g.h ++ ebs) ++ rest =
          usize_to_bytes g.w ++ (usize_to_bytes g.h ++ (ebs ++ rest)) := by
        simp [List.append_assoc]
      rw [e]
      exact usize_roundtrip g.w _ hw
    have h2 : usize_from_bytes (usize_to_bytes g.h ++ (ebs ++ rest)) =
        Except.ok (g.h, ebs ++ rest) := usize_roundtrip g.h _ hh
    have h3 : read_items c (g.w * g.h) (ebs ++ rest) =
        Except.ok (g.data, rest) := by
      have h4 := read_write_items c hc g.data ebs rest hwi
      rwa [hinv] at h4
    have hmod : (g.w * g.h) % 256 ^ 8 = g.w * g.h := Nat.mod_eq_of_lt hwh
    rw [from_bytes_unfold_2 c _ g.w _ g.h _ h1 h2, hmod, h3]

/-- C1 witness: a 2×2 grid of the byte 7 round-trips through the wire
format, leaving the trailing byte 9 unconsumed. -/
theorem c1_roundtrip_witness :
    ∃ g2 : Vec2D Nat,
      Vec2D.from_bytes natCodec
          ([2, 0, 0, 0, 0, 0, 0, 0, 2, 0, 0, 0, 0, 0, 0, 0, 7, 7, 7, 7] ++ [9]) =
        Except.ok (g2, [9]) ∧
      g2.width = (Vec2D.new 2 2 (7 : Nat)).width ∧
      g2.height = (Vec2D.new 2 2 (7 : Nat)).height ∧
      g2.data = (Vec2D.new 2 2 (7 : Nat)).data :=
  c1_roundtrip Nat natCodec natCodec_roundtrip (Vec2D.new 2 2 7) rfl
    (by decide) (by decide) (by decide)
    [2, 0, 0, 0, 0, 0, 0, 0, 2, 0, 0, 0, 0, 0, 0, 0, 7, 7, 7, 7] (by rfl) [9]
